import Mathlib

/-!
Verification of the dynamic task-mapping layer of the Airflow task SDK
(`task-sdk/src/airflow/sdk/bases/decorator.py`) and the XCom client
(`task-sdk/src/airflow/sdk/bases/xcom.py`).

Python runtime values that the code inspects (XComArg instances, mappings,
sequences, strings, integers, `None`, trigger-rule enum members) are embedded
as the inductive `PyValue`.  Python dicts are embedded as insertion-ordered
association lists with unique keys (`Kwargs`), with operations mirroring
`dict.get` / `in` / `update` / `pop`.  Fallible Python code (raising
`TypeError` / `ValueError` / `AttributeError`) is embedded as `Except`.
-/

namespace AirflowSpec

/-- A single-quote character as a string, used to build Python `repr`-style
error messages such as the ones produced by an f-string with `{name!r}`. -/
def sq : String := String.singleton (Char.ofNat 39)

/-- Trigger rules (`airflow.utils.trigger_rule.TriggerRule`) that the
modelled fragment distinguishes: `ALWAYS`, `ALL_DONE_SETUP_SUCCESS`,
and everything else collapsed into `otherRule`. -/
inductive TriggerRule where
  | always
  | allDoneSetupSuccess
  | otherRule (name : String)
deriving DecidableEq

/-- Python exceptions raised by the modelled fragment. -/
inductive AirflowError where
  | typeError (msg : String)
  | valueError (msg : String)
  | attributeError (msg : String)
deriving DecidableEq

mutual
/-- Python runtime values inspected by the decorator layer.  `xcomArg` models
an `XComArg` (deferred cross-task reference, identified by a tag), `mapping`
a `dict`, `seq` a `list` (a non-`str` `Sequence`), `str` a string, `int` an
integer, `pynone` the value `None`, and `triggerRule` a `TriggerRule` member
(these are the values that occur in the decorator's `self.kwargs`). -/
inductive PyValue where
  | xcomArg (tag : Nat)
  | mapping (entries : List (String × PyValue))
  | seq (items : List PyValue)
  | str (s : String)
  | int (n : Int)
  | pynone
  | triggerRule (r : TriggerRule)
end

/-- A Python dict with string keys: an insertion-ordered association list. -/
abbrev Kwargs := List (String × PyValue)

/-- Python `type(v).__name__` for the embedded values. -/
def typeName : PyValue → String
  | .xcomArg _ => ("PlainXComArg")
  | .mapping _ => ("dict")
  | .seq _ => ("list")
  | .str _ => ("str")
  | .int _ => ("int")
  | .pynone => ("NoneType")
  | .triggerRule _ => ("TriggerRule")

/-- `isinstance(v, XComArg)`. -/
def isXComArg : PyValue → Bool
  | .xcomArg _ => true
  | _ => false

/-- `isinstance(v, Mapping)`. -/
def isMappingB : PyValue → Bool
  | .mapping _ => true
  | _ => false

/-- `isinstance(v, Sequence)` (`collections.abc.Sequence`): lists and
strings; dicts, `XComArg`s, integers and `None` are not sequences. -/
def isPySeq : PyValue → Bool
  | .seq _ => true
  | .str _ => true
  | _ => false

/-- Does an `Option PyValue` hold `TriggerRule.ALWAYS`?  Used to embed
`self.kwargs.get("trigger_rule") == TriggerRule.ALWAYS`. -/
def isAlwaysRule : Option PyValue → Bool
  | some (.triggerRule .always) => true
  | _ => false

/-- `d.get(k)` on a Python dict: value of the first (hence, with unique
keys, the only) entry with key `k`. -/
def dictGet (l : Kwargs) (k : String) : Option PyValue :=
  (l.find? (fun kv => kv.1 == k)).map (fun kv => kv.2)

/-- `k in d` on a Python dict. -/
def dictContains (l : Kwargs) (k : String) : Bool :=
  l.any (fun kv => kv.1 == k)

/-- `d[k] = v` / one-key `d.update(...)`: replaces the value in place if the
key exists (keeping its position), otherwise appends the new entry. -/
def dictUpdate : Kwargs → String → PyValue → Kwargs
  | [], k, v => [(k, v)]
  | kv :: rest, k, v =>
    if kv.1 == k then (kv.1, v) :: rest else kv :: dictUpdate rest k v

/-- `d.pop(k, default)`: the popped value (if any) and the remaining dict. -/
def dictPop : Kwargs → String → Option PyValue × Kwargs
  | [], _ => (none, [])
  | kv :: rest, k =>
    if kv.1 == k then (some kv.2, rest)
    else
      let r := dictPop rest k
      (r.1, kv :: r.2)

/-- `d.pop(k)` keeping only the remaining dict. -/
def dictRemove (l : Kwargs) (k : String) : Kwargs :=
  (dictPop l k).2

/-- `dict.update(other)` folded over all entries of `other`:
existing keys are overwritten in place, new keys are appended in order. -/
def dictUpdateAll (l : Kwargs) (other : Kwargs) : Kwargs :=
  other.foldl (fun acc kv => dictUpdate acc kv.1 kv.2) l

/-- Kind of a declared parameter of the wrapped function: an ordinary
parameter or a catch-all `**kwargs` collector (`inspect.Parameter.VAR_KEYWORD`). -/
inductive ParamKind where
  | normal
  | varKeyword
deriving DecidableEq

/-- Is the parameter a `VAR_KEYWORD` catch-all? -/
def isVarKw : ParamKind → Bool
  | .varKeyword => true
  | .normal => false

/-- The declared parameters of the wrapped function, in declaration order. -/
abbrev Params := List (String × ParamKind)

/-- The `func` argument of `_validate_arg_names` (`ValidationSource`):
the literal strings `"expand"` and `"partial"`. -/
inductive VSource where
  | vexpand
  | vfixed
deriving DecidableEq

/-- The string interpolated for `func` in error messages. -/
def vsrcStr : VSource → String
  | .vexpand => ("expand")
  | .vfixed => ("partial")

/-- Modelled from the spec: `is_mappable` lives in
`airflow.sdk.definitions._internal.expandinput`, which is outside the given
sources.  Per the spec the sanctioned shapes for an `expand` value are "a
literal collection of values ... or a deferred value": deferred references,
mappings and sequences are mappable, anything else (including plain strings,
integers, `None`) is not. -/
def is_mappable : PyValue → Bool
  | .xcomArg _ => true
  | .mapping _ => true
  | .seq _ => true
  | _ => false

/-- The pop loop of `ExpandableFactory._validate_arg_names`: iterate over the
declared parameter names, popping each from a copy of the supplied kwargs;
while doing so, for `func == "expand"`, reject a supplied value for a declared
parameter that is not a mappable shape.  (The source iterates over the *set*
of names, whose order is arbitrary; iterating in declaration order is one of
the admissible orders and only affects which of several bad values is
reported first, which no claim depends on.)  Returns the kwargs left over. -/
def popLoop (func : VSource) : List String → Kwargs → Except AirflowError Kwargs
  | [], left => .ok left
  | name :: rest, left =>
    match dictPop left name with
    | (some v, left') =>
      if func = VSource.vexpand ∧ is_mappable v = false then
        .error (.valueError (("expand() got an unexpected type ") ++ sq ++ typeName v ++ sq
          ++ (" for keyword argument ") ++ sq ++ name ++ sq))
      else popLoop func rest left'
    | (none, left') => popLoop func rest left'

/-- `ExpandableFactory._validate_arg_names` (decorator.py lines 88-105):
if any declared parameter is a `VAR_KEYWORD` catch-all, accept everything;
otherwise pop every declared name (checking mappable shapes for `expand`)
and reject leftover keys as unexpected keyword arguments: a single leftover
key is named alone, several are listed comma-joined in insertion order. -/
def baseValidateArgNames (func : VSource) (params : Params) (kwargs : Kwargs) :
    Except AirflowError Unit :=
  if params.any (fun p => isVarKw p.2) then .ok ()
  else
    match popLoop func (params.map Prod.fst) kwargs with
    | .error e => .error e
    | .ok [] => .ok ()
    | .ok [kv] =>
      .error (.typeError (vsrcStr func ++ ("() got an unexpected keyword argument ")
        ++ sq ++ kv.1 ++ sq))
    | .ok left =>
      .error (.typeError (vsrcStr func ++ ("() got unexpected keyword arguments ")
        ++ String.intercalate (", ") (left.map (fun kv => sq ++ kv.1 ++ sq))))

/-- Modelled from the spec: `KNOWN_CONTEXT_KEYS` lives in
`airflow.utils.context`, which is outside the given sources.  The spec calls
these "reserved execution-context names"; a representative set of Airflow
context keys is used.  No claim depends on the exact extension of this set. -/
def KNOWN_CONTEXT_KEYS : List String :=
  [("dag"), ("dag_run"), ("ds"), ("logical_date"), ("map_index_template"),
   ("run_id"), ("task"), ("task_instance"), ("ti"), ("ts"), ("try_number")]

/-- `_TaskDecorator._validate_arg_names` (decorator.py lines 377-387): first
reject kwargs that would shadow task-context variables, then defer to
`ExpandableFactory._validate_arg_names`.  (The source collects the shadowed
names as a set intersection, whose iteration order for the several-names
message is arbitrary; this embedding lists them in `KNOWN_CONTEXT_KEYS`
order.  No claim depends on that message.) -/
def tdValidateArgNames (func : VSource) (params : Params) (kwargs : Kwargs) :
    Except AirflowError Unit :=
  match KNOWN_CONTEXT_KEYS.filter (fun k => dictContains kwargs k) with
  | [] => baseValidateArgNames func params kwargs
  | [name] =>
    .error (.valueError (("cannot call ") ++ vsrcStr func
      ++ ("() on task context variable ") ++ sq ++ name ++ sq))
  | names =>
    .error (.valueError (("cannot call ") ++ vsrcStr func
      ++ ("() on task context variables ")
      ++ String.intercalate (", ") (names.map (fun n => sq ++ n ++ sq))))

/-- Modelled from the spec: `prevent_duplicates` lives in
`airflow.utils.helpers`, which is outside the given sources.  Per the spec it
rejects "if any key already exists" in the first dict, naming a single
duplicated key alone and listing several deterministically (sorted). -/
def prevent_duplicates (kwargs1 : Kwargs) (kwargs2 : Kwargs) (failReason : String) :
    Except AirflowError Unit :=
  match (kwargs2.filter (fun kv => dictContains kwargs1 kv.1)).map Prod.fst with
  | [] => .ok ()
  | [k] => .error (.typeError (failReason ++ (" argument: ") ++ k))
  | ks =>
    .error (.typeError (failReason ++ (" arguments: ")
      ++ String.intercalate (", ") (ks.mergeSort (fun a b => a ≤ b))))

/-- The state of a `_TaskDecorator`: the wrapped function's declared
parameters, the decorator's `self.kwargs` dict (operator-level arguments,
always containing `task_id`, and the nested `op_kwargs` dict after
`partial()` calls), and the setup/teardown flags. -/
structure TaskDecoratorState where
  paramNames : Params
  kwargs : Kwargs
  is_setup : Bool
  is_teardown : Bool

/-- The expand input attached to the produced mapped node:
`DictOfListsExpandInput` for `expand`, `ListOfDictsExpandInput` for
`expand_kwargs`. -/
inductive ExpandInputE where
  | dictOfLists (m : Kwargs)
  | listOfDicts (v : PyValue)

/-- Successful outcome of `expand` / `expand_kwargs` as far as the modelled
fragment goes: the decorator's effective kwargs at the point `_expand` is
invoked (these feed the mapped node's partial kwargs, in particular its
trigger rule), together with the expand input and the `strict` flag. -/
structure ExpandOk where
  effectiveKwargs : Kwargs
  input : ExpandInputE
  strict : Bool

/-- `Except.isOk` for the modelled results. -/
def isOkE {α : Type} : Except AirflowError α → Bool
  | .ok _ => true
  | .error _ => false

/-- `_TaskDecorator.partial` (decorator.py lines 535-540): validate the
argument names, reject keys duplicating existing partial op-kwargs, merge
(`kwargs.update(old_kwargs)` — old entries overwrite/append into the new
dict), and evolve the decorator with the merged dict stored under the
`op_kwargs` key of `self.kwargs`. -/
def fixedBind (st : TaskDecoratorState) (kwargs : Kwargs) :
    Except AirflowError TaskDecoratorState :=
  match tdValidateArgNames VSource.vfixed st.paramNames kwargs with
  | .error e => .error e
  | .ok _ =>
    let old : Kwargs :=
      match dictGet st.kwargs ("op_kwargs") with
      | some (.mapping m) => m
      | _ => []
    match prevent_duplicates old kwargs ("duplicate partial") with
    | .error e => .error e
    | .ok _ =>
      .ok { st with kwargs := dictUpdate st.kwargs ("op_kwargs")
                      (PyValue.mapping (dictUpdateAll kwargs old)) }

/-- The trigger-rule guard at the top of `_TaskDecorator.expand`
(decorator.py lines 390-395): with trigger rule `ALWAYS`, reject if any
mapped value is an `XComArg`. -/
def expandAlwaysCheck (st : TaskDecoratorState) (mapKwargs : Kwargs) :
    Except AirflowError Unit :=
  if isAlwaysRule (dictGet st.kwargs ("trigger_rule"))
      && mapKwargs.any (fun kv => isXComArg kv.2) then
    .error (.valueError (("Task-generated mapping within a task using ") ++ sq
      ++ ("expand") ++ sq ++ (" is not allowed with trigger rule ") ++ sq
      ++ ("always") ++ sq ++ (".")))
  else .ok ()

/-- `_TaskDecorator.expand` (decorator.py lines 389-406): the `ALWAYS`
trigger-rule guard, the empty-map guard, argument-name validation, the
`prevent_duplicates(self.kwargs, map_kwargs, "mapping already partial")`
check against the decorator's *top-level* kwargs, the teardown trigger-rule
forcing, and finally `_expand(DictOfListsExpandInput(map_kwargs), strict=False)`. -/
def expand (st : TaskDecoratorState) (mapKwargs : Kwargs) :
    Except AirflowError ExpandOk :=
  match expandAlwaysCheck st mapKwargs with
  | .error e => .error e
  | .ok _ =>
    if mapKwargs.isEmpty then .error (.typeError ("no arguments to expand against"))
    else
      match tdValidateArgNames VSource.vexpand st.paramNames mapKwargs with
      | .error e => .error e
      | .ok _ =>
        match prevent_duplicates st.kwargs mapKwargs ("mapping already partial") with
        | .error e => .error e
        | .ok _ =>
          if st.is_teardown then
            if dictContains st.kwargs ("trigger_rule") then
              .error (.valueError ("Trigger rule not configurable for teardown tasks."))
            else
              .ok { effectiveKwargs :=
                      dictUpdate st.kwargs ("trigger_rule")
                        (PyValue.triggerRule TriggerRule.allDoneSetupSuccess),
                    input := .dictOfLists mapKwargs, strict := false }
          else
            .ok { effectiveKwargs := st.kwargs,
                  input := .dictOfLists mapKwargs, strict := false }

/-- `_TaskDecorator.__call__` (decorator.py lines 355-375) as far as the
modelled fragment goes: the teardown trigger-rule forcing, the pop of
`on_failure_fail_dagrun`, and the kwargs handed to the operator constructor
(from which the node's trigger rule is taken). -/
def callTask (st : TaskDecoratorState) : Except AirflowError Kwargs :=
  if st.is_teardown then
    if dictContains st.kwargs ("trigger_rule") then
      .error (.valueError ("Trigger rule not configurable for teardown tasks."))
    else
      .ok (dictRemove
        (dictUpdate st.kwargs ("trigger_rule")
          (PyValue.triggerRule TriggerRule.allDoneSetupSuccess))
        ("on_failure_fail_dagrun"))
  else .ok (dictRemove st.kwargs ("on_failure_fail_dagrun"))

/-- Python iteration `for x in v` over an embedded value: lists yield their
items, dicts their keys, strings their characters; other values raise
`TypeError` (an `XComArg` argument never reaches iteration in the modelled
code paths because of the `isinstance(kwargs, XComArg)` guards). -/
def pyIterate : PyValue → Except AirflowError (List PyValue)
  | .seq items => .ok items
  | .mapping m => .ok (m.map (fun kv => PyValue.str kv.1))
  | .str s => .ok (s.data.map (fun c => PyValue.str (String.singleton c)))
  | v => .error (.typeError (sq ++ typeName v ++ sq ++ (" object is not iterable")))

/-- Python `v.values()`: mapping values, `AttributeError` for anything else. -/
def pyValues : PyValue → Except AirflowError (List PyValue)
  | .mapping m => .ok (m.map Prod.snd)
  | v => .error (.attributeError (sq ++ typeName v ++ sq
      ++ (" object has no attribute ") ++ sq ++ ("values") ++ sq))

/-- The list comprehension
`[isinstance(v, XComArg) for kwarg in kwargs if not isinstance(kwarg, XComArg) for v in kwarg.values()]`
of `_TaskDecorator.expand_kwargs`: the whole list is built before `any` is
applied, so an `AttributeError` from `.values()` on a non-mapping element
propagates even if an earlier element already produced `True`. -/
def collectXComFlags : List PyValue → Except AirflowError (List Bool)
  | [] => .ok []
  | item :: rest =>
    if isXComArg item then collectXComFlags rest
    else
      match pyValues item with
      | .error e => .error e
      | .ok vs =>
        match collectXComFlags rest with
        | .error e => .error e
        | .ok fs => .ok (vs.map isXComArg ++ fs)

/-- The `any(...)` over the comprehension above, including the iteration of
the `kwargs` argument itself. -/
def alwaysScan (kwargs : PyValue) : Except AirflowError Bool :=
  match pyIterate kwargs with
  | .error e => .error e
  | .ok items =>
    match collectXComFlags items with
    | .error e => .error e
    | .ok flags => .ok (flags.any id)

/-- The items iterated by the `isinstance(kwargs, Sequence)` loop of
`expand_kwargs`. -/
def itemsOfSeq : PyValue → List PyValue
  | .seq items => items
  | .str s => s.data.map (fun c => PyValue.str (String.singleton c))
  | _ => []

/-- `_TaskDecorator.expand_kwargs` (decorator.py lines 408-430): the `ALWAYS`
trigger-rule guard (skipped entirely when the argument itself is an
`XComArg`, and skipping `XComArg` elements when scanning), then the shape
check — a `Sequence` must contain only `XComArg`s and mappings, a
non-sequence must be an `XComArg` — with the `TypeError` message naming
`type(kwargs).__name__`, the type of the whole argument.  Finally
`_expand(ListOfDictsExpandInput(kwargs), strict=strict)`. -/
def expandKwargs (st : TaskDecoratorState) (kwargs : PyValue) (strict : Bool) :
    Except AirflowError ExpandOk :=
  match (if isAlwaysRule (dictGet st.kwargs ("trigger_rule")) && !(isXComArg kwargs)
         then alwaysScan kwargs else .ok false) with
  | .error e => .error e
  | .ok found =>
    if found then
      .error (.valueError (("Task-generated mapping within a task using ") ++ sq
        ++ ("expand_kwargs") ++ sq ++ (" is not allowed with trigger rule ") ++ sq
        ++ ("always") ++ sq ++ (".")))
    else
      if isPySeq kwargs then
        if (itemsOfSeq kwargs).all (fun it => isXComArg it || isMappingB it) then
          .ok { effectiveKwargs := st.kwargs, input := .listOfDicts kwargs,
                strict := strict }
        else
          .error (.typeError (("expected XComArg or list[dict], not ") ++ typeName kwargs))
      else if isXComArg kwargs then
        .ok { effectiveKwargs := st.kwargs, input := .listOfDicts kwargs,
              strict := strict }
      else
        .error (.typeError (("expected XComArg or list[dict], not ") ++ typeName kwargs))

/-- Numeric value of a decimal digit string (`int(digits)`); leading zeros
are allowed, exactly as in the source's `int(match.group(1))`. -/
def digitsVal (ds : List Char) : Nat :=
  ds.foldl (fun a c => a * 10 + (c.toNat - 48)) 0

/-- `re.split(r"__\d+$", s)[0]`: if the identifier ends in `__` followed by
one or more digits (the trailing digit run, preceded by a double
underscore), strip that suffix; otherwise return it unchanged.  The
source's digit class is the regex `\d`, which matches all Unicode decimal
digits; this embedding uses the ASCII digits, and is therefore faithful
exactly on identifiers over the ASCII task-id alphabet (`isTaskIdChar`),
the universe the C2 correction's amended theorem is stated for. -/
def stripNumSuffix (l : List Char) : List Char :=
  if (l.reverse.takeWhile Char.isDigit).isEmpty then l
  else if (l.reverse.dropWhile Char.isDigit).take 2 = ['_', '_'] then
    ((l.reverse.dropWhile Char.isDigit).drop 2).reverse
  else l

/-- One token of the interpolated stem pattern against one subject
character: the stem is interpolated into the scan regex verbatim, so a
dot in the stem is the regex wildcard (matching any character except a
newline), while every other character of the task-id alphabet matches
itself literally. -/
def charMatches (p c : Char) : Bool :=
  if p == '.' then !(c == '\n') else p == c

/-- The interpolated stem pattern against a subject segment of the same
length: pointwise `charMatches`, failing on a length mismatch.  Every stem
token consumes exactly one character, so this is the full matching
semantics of the interpolated fragment for stems over the task-id
alphabet, where the dot is the only regex metacharacter. -/
def stemMatches : List Char → List Char → Bool
  | [], [] => true
  | p :: ps, c :: cs => charMatches p c && stemMatches ps cs
  | _, _ => false

/-- The characters Airflow allows in task ids (`KEY_REGEX`, ASCII part):
word characters, dot and dash.  Among these, the dot is the only regex
metacharacter, so `stemMatches` is the exact semantics of the interpolated
stem pattern on this alphabet; the Unicode word characters the source also
admits (whose digits the regex `\d` would match) are outside the model. -/
def isTaskIdChar (c : Char) : Bool :=
  c.isAlphanum || c == '_' || c == '.' || c == '-'

/-- The scan step of `_find_id_suffixes`: whether
`re.match(rf"^(stem)__(\d+)$", s)` succeeds — the stem interpolated
verbatim as a regex (so a dot in it matches any character), then a double
underscore, then a nonempty all-digit run to the end — and if so the
digits' numeric value.  Digit-class caveat as for `stripNumSuffix`. -/
def matchSuffix (stem l : List Char) : Option Nat :=
  if stemMatches stem (l.take stem.length) then
    if (l.drop stem.length).take 2 = ['_', '_'] then
      if !((l.drop stem.length).drop 2).isEmpty
          && ((l.drop stem.length).drop 2).all Char.isDigit then
        some (digitsVal ((l.drop stem.length).drop 2))
      else none
    else none
  else none

/-- The numeric suffixes yielded by `_find_id_suffixes` for the stem, over
the DAG's task ids (without the final `yield 0`). -/
def suffixList (stem : List Char) (ids : List String) : List Nat :=
  ids.filterMap (fun i => matchSuffix stem i.data)

/-- `max(_find_id_suffixes(dag))`: the maximum over the matching numeric
suffixes and the default `0`. -/
def maxSuffix (stem : List Char) (ids : List String) : Nat :=
  (suffixList stem ids).foldr max 0

/-- `get_unique_task_id` (decorator.py lines 108-147), with the DAG's task
ids passed explicitly (`none` embeds the no-current-DAG case) and no task
group (so `tg_task_id == task_id`): if the desired id is unused return it
unchanged, otherwise return `stem__{max+1}` where the stem is the id with
any `__<digits>` suffix stripped and the max ranges over the used ids
matching `stem__<digits>` (default 0). -/
def get_unique_task_id (taskId : String) (dagTaskIds : Option (List String)) : String :=
  match dagTaskIds with
  | none => taskId
  | some ids =>
    if taskId ∈ ids then
      String.mk (stripNumSuffix taskId.data) ++ ("__")
        ++ Nat.repr (maxSuffix (stripNumSuffix taskId.data) ids + 1)
    else taskId

/-- A typed response from the supervisor channel, as received by the XCom
client: an `XComResult` (whose `value` field may be absent), an
`XComSequenceSliceResult` (whose `root` holds the serialized values in
supervisor order), or a response of some other kind (its textual form,
interpolated into the type-mismatch message). -/
inductive SupervisorResponse where
  | xcomResult (value : Option String)
  | xcomSeqSliceResult (root : List String)
  | otherResponse (desc : String)

/-- The textual form of a response used in type-mismatch messages. -/
def responseDesc : SupervisorResponse → String
  | .xcomResult _ => ("XComResult")
  | .xcomSeqSliceResult _ => ("XComSequenceSliceResult")
  | .otherResponse d => d

/-- `BaseXCom.get_one` (xcom.py lines 210-272) from the point the supervisor
response arrives (`deser` embeds the opaque `deserialize_value`): a
non-`XComResult` response raises `TypeError`; a present value is
deserialized and returned; an absent value logs a warning (the returned
`Bool`) and yields `None` — it never raises. -/
def get_one (deser : String → PyValue) (resp : SupervisorResponse) :
    Except AirflowError (Option PyValue × Bool) :=
  match resp with
  | .xcomResult (some v) => .ok (some (deser v), false)
  | .xcomResult none => .ok (none, true)
  | r => .error (.typeError (("Expected XComResult, received: ") ++ responseDesc r))

/-- `BaseXCom.get_all` (xcom.py lines 274-323) from the point the supervisor
response arrives: a non-`XComSequenceSliceResult` response raises
`TypeError`; an empty `root` yields `None`; otherwise the values are
deserialized in the order the supervisor returned them. -/
def get_all (deser : String → PyValue) (resp : SupervisorResponse) :
    Except AirflowError (Option (List PyValue)) :=
  match resp with
  | .xcomSeqSliceResult root =>
    if root.isEmpty then .ok none
    else .ok (some (root.map deser))
  | r => .error (.typeError (("Expected XComSequenceSliceResult, received: ")
      ++ responseDesc r))

/-!  Concrete decorator states used by evaluations, counterexamples and
witnesses. -/

/-- A `@task`-decorated function `f(a, b)` before any `partial()` call:
`self.kwargs` holds only the default `task_id`. -/
def dAB : TaskDecoratorState :=
  { paramNames := [(("a"), ParamKind.normal), (("b"), ParamKind.normal)],
    kwargs := [(("task_id"), PyValue.str ("f"))],
    is_setup := false, is_teardown := false }

/-- The decorator state after `f.partial(a=1)`: the partial kwarg `a` is
stored *nested* under the `op_kwargs` key of `self.kwargs`. -/
def dABfixed : TaskDecoratorState :=
  { paramNames := [(("a"), ParamKind.normal), (("b"), ParamKind.normal)],
    kwargs := [(("task_id"), PyValue.str ("f")),
               (("op_kwargs"), PyValue.mapping [(("a"), PyValue.int 1)])],
    is_setup := false, is_teardown := false }

/-- A `@task(trigger_rule=TriggerRule.ALWAYS)`-decorated function `f(x)`. -/
def stAlways : TaskDecoratorState :=
  { paramNames := [(("x"), ParamKind.normal)],
    kwargs := [(("task_id"), PyValue.str ("f")),
               (("trigger_rule"), PyValue.triggerRule TriggerRule.always)],
    is_setup := false, is_teardown := false }

/-- A plain `@task`-decorated function `f(x)` with no trigger rule set. -/
def stPlain : TaskDecoratorState :=
  { paramNames := [(("x"), ParamKind.normal)],
    kwargs := [(("task_id"), PyValue.str ("f"))],
    is_setup := false, is_teardown := false }

/-- A teardown-marked decorator with no explicit trigger rule. -/
def stTear : TaskDecoratorState :=
  { paramNames := [(("x"), ParamKind.normal)],
    kwargs := [(("task_id"), PyValue.str ("f"))],
    is_setup := false, is_teardown := true }

/-- A teardown-marked decorator whose caller also supplied an explicit
trigger rule. -/
def stTearTrig : TaskDecoratorState :=
  { paramNames := [(("x"), ParamKind.normal)],
    kwargs := [(("task_id"), PyValue.str ("f")),
               (("trigger_rule"), PyValue.triggerRule (TriggerRule.otherRule ("all_success")))],
    is_setup := false, is_teardown := true }

/-- The message component of a failed expand result (empty for success). -/
def errMsgOf : Except AirflowError ExpandOk → String
  | .error (.typeError m) => m
  | .error (.valueError m) => m
  | .error (.attributeError m) => m
  | .ok _ => ("")

/-- Does an element of an `expand_kwargs` sequence (a mapping) have an
`XComArg` among its values? -/
def mappingHasXCom : PyValue → Bool
  | .mapping m => m.any (fun kv => isXComArg kv.2)
  | _ => false

/-- Claim C1: evaluating the code at the failing input.  After
`f.partial(a=1)` — which yields exactly the nested state `dABfixed` — the
call `f.partial(a=1).expand(a=[1, 2])` *succeeds*: the parse-time
`prevent_duplicates(self.kwargs, map_kwargs, "mapping already partial")`
check only compares the top-level keys of `self.kwargs` (`task_id`,
`op_kwargs`) with the mapped key `a`, never the nested partial op-kwargs,
and `expand` passes `strict=False` so the unmap-time duplicate check is
skipped too.  The claim (and the spec) say this must raise a construction
error naming `a` with reason "mapping already partial". -/
theorem claim_C1_eval :
    fixedBind dAB [(("a"), PyValue.int 1)] = Except.ok dABfixed
    ∧ dictGet dABfixed.kwargs ("op_kwargs")
        = some (PyValue.mapping [(("a"), PyValue.int 1)])
    ∧ isOkE (expand dABfixed [(("a"), PyValue.seq [PyValue.int 1, PyValue.int 2])]) = true :=
  ⟨rfl, rfl, rfl⟩

/-- Claim C6: `expand()` with an empty keyword-argument mapping raises
`TypeError("no arguments to expand against")` in every decorator state:
the `ALWAYS` trigger-rule guard cannot fire on an empty mapping, so the
empty-map guard is always reached first. -/
theorem claim_C6 (st : TaskDecoratorState) :
    expand st [] = .error (.typeError ("no arguments to expand against")) := by
  simp [expand, expandAlwaysCheck]

/-- Claim C8: a desired identifier not already present among the used
identifiers is returned unchanged by `get_unique_task_id`. -/
theorem claim_C8 (d : String) (ids : List String) (h : d ∉ ids) :
    get_unique_task_id d (some ids) = d := by
  simp [get_unique_task_id, h]

/-- Claim C8 witness at a concrete input. -/
theorem claim_C8_witness : get_unique_task_id ("extract") (some [("load"), ("load__1")]) = ("extract") :=
  claim_C8 ("extract") [("load"), ("load__1")] (by decide)

/-- Claim C9: when the supervisor responds with a well-typed `XComResult`
whose value is absent, `get_one` logs a warning (the `true` flag) and
returns `None` — it never raises for an absent value. -/
theorem claim_C9 (deser : String → PyValue) :
    get_one deser (.xcomResult none) = .ok (none, true)
    ∧ isOkE (get_one deser (.xcomResult none)) = true :=
  ⟨rfl, rfl⟩

/-- Claim C10: `get_all` returns `None` (not an empty list) when the
supervisor's sequence-slice result holds no values, and otherwise the list
of deserialized values in the order the supervisor returned them. -/
theorem claim_C10 (deser : String → PyValue) (root : List String) :
    get_all deser (.xcomSeqSliceResult []) = .ok none
    ∧ (root ≠ [] → get_all deser (.xcomSeqSliceResult root) = .ok (some (root.map deser))) := by
  refine ⟨rfl, fun h => ?_⟩
  simp [get_all, h]

/-- Claim C10 witness at a concrete input. -/
theorem claim_C10_witness :
    get_all (fun s => PyValue.str s) (.xcomSeqSliceResult [("u"), ("v")])
      = .ok (some [PyValue.str ("u"), PyValue.str ("v")]) :=
  (claim_C10 (fun s => PyValue.str s) [("u"), ("v")]).2 (by decide)

/-- Claim C3 counterexample: with trigger rule `ALWAYS`, `expand_kwargs`
applied to a *single* `XComArg` argument succeeds — the trigger-rule guard
is explicitly skipped by `not isinstance(kwargs, XComArg)` — refuting the
claim that it rejects "exactly as expand does, including the case where the
argument is a single deferred reference". -/
theorem claim_C3_counterexample :
    dictGet stAlways.kwargs ("trigger_rule") = some (PyValue.triggerRule TriggerRule.always)
    ∧ isOkE (expandKwargs stAlways (PyValue.xcomArg 0) true) = true :=
  ⟨rfl, rfl⟩

/-- Claim C4 counterexample: for the sequence `[42]` whose element `42` is
neither an `XComArg` nor a mapping, the `TypeError` message names `list` —
`type(kwargs).__name__`, the type of the whole supplied sequence — not the
offending element's type `int`; and with trigger rule `ALWAYS` the same
input raises an `AttributeError` from the trigger-rule scan instead of the
type error. -/
theorem claim_C4_counterexample :
    expandKwargs stPlain (PyValue.seq [PyValue.int 42]) true
      = .error (.typeError (("expected XComArg or list[dict], not ") ++ ("list")))
    ∧ errMsgOf (expandKwargs stPlain (PyValue.seq [PyValue.int 42]) true)
      ≠ (("expected XComArg or list[dict], not ") ++ ("int"))
    ∧ expandKwargs stAlways (PyValue.seq [PyValue.int 42]) true
      = .error (.attributeError (sq ++ ("int") ++ sq ++ (" object has no attribute ")
          ++ sq ++ ("values") ++ sq)) :=
  ⟨rfl, by decide, rfl⟩

/-- Looking up a freshly updated key yields the new value. -/
theorem dictGet_update_self (l : Kwargs) (k : String) (v : PyValue) :
    dictGet (dictUpdate l k v) k = some v := by
  induction l with
  | nil => simp [dictUpdate, dictGet, List.find?]
  | cons kv rest ih =>
    cases h : kv.1 == k with
    | true => simp [dictUpdate, h, dictGet, List.find?]
    | false => simpa [dictUpdate, h, dictGet, List.find?] using ih

/-- Removing one key leaves lookups of a different key unchanged. -/
theorem dictGet_remove_ne (l : Kwargs) (k k' : String) (h : k ≠ k') :
    dictGet (dictRemove l k') k = dictGet l k := by
  induction l with
  | nil => rfl
  | cons kv rest ih =>
    cases hh : kv.1 == k' with
    | true =>
      have hk : (kv.1 == k) = false := by
        have : kv.1 = k' := by simpa using hh
        simp [this, Ne.symm h]
      simp [dictRemove, dictPop, hh, dictGet, List.find?, hk]
    | false =>
      cases hk : kv.1 == k with
      | true => simp [dictRemove, dictPop, hh, dictGet, List.find?, hk]
      | false =>
        simpa [dictRemove, dictPop, hh, dictGet, List.find?, hk] using ih

/-- Claim C5: a teardown-marked task decorator forces the node's trigger
rule to `ALL_DONE_SETUP_SUCCESS` both when the task is instantiated by
calling it and when it is expanded (the forced rule sits in the effective
kwargs the node is built from); and if the caller explicitly supplied a
trigger rule, both paths raise instead of succeeding. -/
theorem claim_C5 (st : TaskDecoratorState) (mapKwargs : Kwargs)
    (ht : st.is_teardown = true) :
    (dictContains st.kwargs ("trigger_rule") = true →
      isOkE (callTask st) = false ∧ isOkE (expand st mapKwargs) = false)
    ∧ (dictContains st.kwargs ("trigger_rule") = false →
      (∀ k, callTask st = .ok k →
        dictGet k ("trigger_rule") = some (PyValue.triggerRule TriggerRule.allDoneSetupSuccess))
      ∧ (∀ r, expand st mapKwargs = .ok r →
        dictGet r.effectiveKwargs ("trigger_rule")
          = some (PyValue.triggerRule TriggerRule.allDoneSetupSuccess))) := by
  constructor
  · intro hc
    refine ⟨by simp [callTask, ht, hc, isOkE], ?_⟩
    unfold expand
    split
    · simp [isOkE]
    · split
      · simp [isOkE]
      · split
        · simp [isOkE]
        · split
          · simp [isOkE]
          · simp [ht, hc, isOkE]
  · intro hc
    constructor
    · intro k hk
      unfold callTask at hk
      rw [ht] at hk
      simp only [hc, if_true, if_false, Bool.false_eq_true] at hk
      cases hk
      rw [dictGet_remove_ne _ _ _ (by decide), dictGet_update_self]
    · intro r hr
      unfold expand at hr
      split at hr
      · cases hr
      · split at hr
        · cases hr
        · split at hr
          · cases hr
          · split at hr
            · cases hr
            · rw [hc] at hr
              simp at hr
              subst hr
              exact dictGet_update_self _ _ _

/-- Claim C5 witness: at the concrete teardown states, an explicit trigger
rule makes `expand` fail, and without one the kwargs handed to the operator
constructor by `__call__` carry the forced `ALL_DONE_SETUP_SUCCESS` rule. -/
theorem claim_C5_witness :
    isOkE (expand stTearTrig [(("x"), PyValue.seq [PyValue.int 1])]) = false
    ∧ dictGet
        (dictRemove
          (dictUpdate stTear.kwargs ("trigger_rule")
            (PyValue.triggerRule TriggerRule.allDoneSetupSuccess))
          ("on_failure_fail_dagrun"))
        ("trigger_rule")
      = some (PyValue.triggerRule TriggerRule.allDoneSetupSuccess) :=
  ⟨((claim_C5 stTearTrig [(("x"), PyValue.seq [PyValue.int 1])] rfl).1 rfl).2,
   ((claim_C5 stTear [] rfl).2 rfl).1 _ rfl⟩

/-- `any` over the `XComArg` flags of a mapping's values, restated over the
mapping's entries. -/
theorem anyMapSnd (m : List (String × PyValue)) :
    (m.map (isXComArg ∘ Prod.snd)).any id = m.any (fun kv => isXComArg kv.2) := by
  induction m with
  | nil => rfl
  | cons kv t ih => simp only [List.map_cons, List.any_cons, ih, id, Function.comp]

/-- The trigger-rule scan of `expand_kwargs` succeeds without an
`AttributeError` exactly when every non-`XComArg` element is a mapping, and
then reports whether some such mapping holds an `XComArg` value. -/
theorem collectXComFlags_ok (items : List PyValue)
    (hall : items.all (fun it => isXComArg it || isMappingB it) = true) :
    ∃ fs, collectXComFlags items = .ok fs
      ∧ fs.any id = items.any (fun it => !isXComArg it && mappingHasXCom it) := by
  induction items with
  | nil => exact ⟨[], rfl, rfl⟩
  | cons it rest ih =>
    rw [List.all_cons, Bool.and_eq_true] at hall
    obtain ⟨fs, hfs, hany⟩ := ih hall.2
    cases hx : isXComArg it with
    | true => exact ⟨fs, by simp [collectXComFlags, hx, hfs], by simp [hx, hany]⟩
    | false =>
      have hm : isMappingB it = true := by
        have h1 := hall.1
        rw [hx] at h1
        simpa using h1
      cases it with
      | mapping m =>
        refine ⟨(m.map Prod.snd).map isXComArg ++ fs,
          by simp [collectXComFlags, isXComArg, pyValues, hfs], ?_⟩
        simp [List.any_append, List.map_map, anyMapSnd, hany, mappingHasXCom, isXComArg]
      | xcomArg t => simp [isXComArg] at hx
      | seq l => simp [isMappingB] at hm
      | str s => simp [isMappingB] at hm
      | int n => simp [isMappingB] at hm
      | pynone => simp [isMappingB] at hm
      | triggerRule r => simp [isMappingB] at hm

/-- Claim C3 amended: with trigger rule `ALWAYS`, `expand_kwargs` accepts a
single `XComArg` argument (the guard is skipped for it), and rejects with
the construction error exactly in the case it can inspect at parse time — a
concrete sequence all of whose non-`XComArg` elements are mappings, some of
which carries an `XComArg` value. -/
theorem claim_C3_amended (st : TaskDecoratorState) (strict : Bool)
    (ha : isAlwaysRule (dictGet st.kwargs ("trigger_rule")) = true) :
    (∀ x : Nat, isOkE (expandKwargs st (PyValue.xcomArg x) strict) = true)
    ∧ (∀ items : List PyValue,
        items.all (fun it => isXComArg it || isMappingB it) = true →
        items.any (fun it => !isXComArg it && mappingHasXCom it) = true →
        expandKwargs st (PyValue.seq items) strict
          = .error (.valueError (("Task-generated mapping within a task using ") ++ sq
              ++ ("expand_kwargs") ++ sq ++ (" is not allowed with trigger rule ") ++ sq
              ++ ("always") ++ sq ++ (".")))) := by
  constructor
  · intro x
    simp [expandKwargs, isXComArg, isPySeq, isOkE]
  · intro items hall hany
    obtain ⟨fs, hfs, hfsany⟩ := collectXComFlags_ok items hall
    rw [hany] at hfsany
    simp [expandKwargs, ha, isXComArg, alwaysScan, pyIterate, hfs, hfsany]

/-- Claim C3 witness: at the concrete `ALWAYS`-rule state, a sequence whose
mapping element holds an `XComArg` value is rejected. -/
theorem claim_C3_witness :
    expandKwargs stAlways (PyValue.seq [PyValue.mapping [(("x"), PyValue.xcomArg 1)]]) true
      = .error (.valueError (("Task-generated mapping within a task using ") ++ sq
          ++ ("expand_kwargs") ++ sq ++ (" is not allowed with trigger rule ") ++ sq
          ++ ("always") ++ sq ++ (".")) ) :=
  (claim_C3_amended stAlways true rfl).2
    [PyValue.mapping [(("x"), PyValue.xcomArg 1)]] (by decide) (by decide)

/-- Claim C4 amended: when the trigger rule is not the `ALWAYS` variant (so
the trigger-rule scan is skipped) and some element of the concrete sequence
is neither an `XComArg` nor a mapping, `expand_kwargs` raises a `TypeError`
whose message names the type of the *whole supplied sequence*
(`type(kwargs).__name__`, i.e. `list`), not the offending element. -/
theorem claim_C4_amended (st : TaskDecoratorState) (items : List PyValue) (strict : Bool)
    (hna : isAlwaysRule (dictGet st.kwargs ("trigger_rule")) = false)
    (hbad : items.any (fun it => !(isXComArg it || isMappingB it)) = true) :
    expandKwargs st (PyValue.seq items) strict
      = .error (.typeError (("expected XComArg or list[dict], not ") ++ ("list"))) := by
  have hall : items.all (fun it => isXComArg it || isMappingB it) = false := by
    obtain ⟨x, hx, hpx⟩ := List.any_eq_true.mp hbad
    cases h : items.all (fun it => isXComArg it || isMappingB it) with
    | false => rfl
    | true =>
      have := List.all_eq_true.mp h x hx
      simp [this] at hpx
  simp [expandKwargs, hna, isPySeq, itemsOfSeq, hall, typeName]

/-- Claim C4 witness at a concrete input. -/
theorem claim_C4_witness :
    expandKwargs stPlain (PyValue.seq [PyValue.int 7]) true
      = .error (.typeError (("expected XComArg or list[dict], not ") ++ ("list"))) :=
  claim_C4_amended stPlain [PyValue.int 7] true rfl (by decide)

/-- A successful dict lookup returns the value of some entry of the dict. -/
theorem dictGet_some_mem {l : Kwargs} {k : String} {v : PyValue}
    (h : dictGet l k = some v) : ∃ kv ∈ l, kv.2 = v := by
  unfold dictGet at h
  cases hf : l.find? (fun kv => kv.1 == k) with
  | none => rw [hf] at h; cases h
  | some kv =>
    rw [hf] at h
    exact ⟨kv, List.mem_of_find?_eq_some hf, by simpa using h⟩

/-- On a dict with unique keys, `pop` returns the looked-up value together
with the entries whose key differs. -/
theorem dictPop_eq (l : Kwargs) (k : String) (hnd : (l.map Prod.fst).Nodup) :
    dictPop l k = (dictGet l k, l.filter (fun kv => !(kv.1 == k))) := by
  induction l with
  | nil => rfl
  | cons kv rest ih =>
    rw [List.map_cons, List.nodup_cons] at hnd
    cases h : kv.1 == k with
    | true =>
      have hk : kv.1 = k := by simpa using h
      have hrest : rest.filter (fun kv' => !(kv'.1 == k)) = rest := by
        apply List.filter_eq_self.mpr
        intro a ha
        have hne : a.1 ≠ k := by
          intro e
          exact hnd.1 (by rw [hk, ← e]; exact List.mem_map_of_mem Prod.fst ha)
        simp [hne]
      simp [dictPop, h, dictGet, List.find?, hrest, List.filter_cons]
    | false =>
      simp [dictPop, h, dictGet, List.find?, List.filter_cons, ih hnd.2]

/-- `List.contains` over a cons cell, definitionally. -/
theorem containsCons (n : String) (ns : List String) (x : String) :
    (n :: ns).contains x = (x == n || ns.contains x) := rfl

/-- The pop loop of `_validate_arg_names`, on a dict with unique keys whose
values pass the expand-shape check (vacuously for `partial`), succeeds and
leaves exactly the supplied entries whose key is not a declared name. -/
theorem popLoop_ok (func : VSource) (names : List String) (left : Kwargs)
    (hm : func = VSource.vfixed ∨ ∀ kv ∈ left, is_mappable kv.2 = true)
    (hnd : (left.map Prod.fst).Nodup) :
    popLoop func names left = .ok (left.filter (fun kv => !(names.contains kv.1))) := by
  induction names generalizing left with
  | nil =>
    have hf : left.filter (fun kv => !(([] : List String).contains kv.1)) = left :=
      List.filter_eq_self.mpr (fun a _ => rfl)
    simp [popLoop, hf]
  | cons name rest ih =>
    rw [popLoop, dictPop_eq left name hnd]
    cases hg : dictGet left name with
    | some v =>
      dsimp only
      have hmap : ¬(func = VSource.vexpand ∧ is_mappable v = false) := by
        rcases hm with hf | hall
        · rintro ⟨he, _⟩
          rw [he] at hf
          cases hf
        · rintro ⟨_, hv⟩
          obtain ⟨kv, hkv, hkveq⟩ := dictGet_some_mem hg
          rw [← hkveq] at hv
          rw [hall kv hkv] at hv
          cases hv
      have hnd' : ((left.filter (fun kv => !(kv.1 == name))).map Prod.fst).Nodup :=
        List.Nodup.sublist (List.Sublist.map Prod.fst (List.filter_sublist left)) hnd
      have hm' : func = VSource.vfixed
          ∨ ∀ kv ∈ left.filter (fun kv => !(kv.1 == name)), is_mappable kv.2 = true := by
        rcases hm with hf | hall
        · exact Or.inl hf
        · exact Or.inr (fun kv hkv => hall kv (List.mem_of_mem_filter hkv))
      rw [if_neg hmap, ih _ hm' hnd', List.filter_filter]
      congr 1
      apply List.filter_congr
      intro a _
      cases hcn : a.1 == name with
      | true =>
        simp [containsCons, hcn]
        intro h
        exact absurd (by simpa using hcn) h
      | false =>
        simp [containsCons, hcn]
        intro _
        simpa using hcn
    | none =>
      dsimp only
      have hfk : left.filter (fun kv => !(kv.1 == name)) = left := by
        apply List.filter_eq_self.mpr
        intro a ha
        unfold dictGet at hg
        cases hf : left.find? (fun kv => kv.1 == name) with
        | some kv => rw [hf] at hg; cases hg
        | none =>
          have := List.find?_eq_none.mp hf a ha
          simpa using this
      rw [hfk, ih _ hm hnd]
      congr 1
      apply List.filter_congr
      intro a ha
      have hne : (a.1 == name) = false := by
        unfold dictGet at hg
        cases hf : left.find? (fun kv => kv.1 == name) with
        | some kv => rw [hf] at hg; cases hg
        | none =>
          have := List.find?_eq_none.mp hf a ha
          simpa using this
      simp [containsCons, hne]
      intro _
      simpa using hne

/-- The supplied keyword arguments whose key is not among the declared
parameter names: exactly the entries `_validate_arg_names` objects to, in
insertion order. -/
def unexpectedKeys (params : Params) (kwargs : Kwargs) : Kwargs :=
  kwargs.filter (fun kv => !((params.map Prod.fst).contains kv.1))

/-- Claim C7: with a catch-all keyword parameter every supplied key is
accepted; without one, validation succeeds exactly when every supplied key
is a declared parameter name; a single unexpected key is named alone in the
binding error, and several are listed comma-joined in the insertion order
of the supplied kwargs.  (The expand-shape side condition `hm` keeps the
shape `ValueError` — a different error of the source — from firing first.) -/
theorem claim_C7 (func : VSource) (params : Params) (kwargs : Kwargs)
    (hnd : (kwargs.map Prod.fst).Nodup)
    (hm : func = VSource.vfixed ∨ ∀ kv ∈ kwargs, is_mappable kv.2 = true) :
    (params.any (fun p => isVarKw p.2) = true →
      baseValidateArgNames func params kwargs = .ok ())
    ∧ (params.any (fun p => isVarKw p.2) = false →
      ((baseValidateArgNames func params kwargs = .ok ())
        ↔ ∀ kv ∈ kwargs, (params.map Prod.fst).contains kv.1 = true)
      ∧ (∀ k v, unexpectedKeys params kwargs = [(k, v)] →
          baseValidateArgNames func params kwargs
            = .error (.typeError (vsrcStr func ++ ("() got an unexpected keyword argument ")
                ++ sq ++ k ++ sq)))
      ∧ (2 ≤ (unexpectedKeys params kwargs).length →
          baseValidateArgNames func params kwargs
            = .error (.typeError (vsrcStr func ++ ("() got unexpected keyword arguments ")
                ++ String.intercalate (", ")
                    ((unexpectedKeys params kwargs).map (fun kv => sq ++ kv.1 ++ sq)))))) := by
  constructor
  · intro hck
    simp [baseValidateArgNames, hck]
  · intro hck
    have hpl := popLoop_ok func (params.map Prod.fst) kwargs hm hnd
    have hbase : baseValidateArgNames func params kwargs =
        (match (Except.ok (kwargs.filter (fun kv => !((params.map Prod.fst).contains kv.1)))
              : Except AirflowError Kwargs) with
         | .error e => .error e
         | .ok [] => .ok ()
         | .ok [kv] => .error (.typeError (vsrcStr func
             ++ ("() got an unexpected keyword argument ") ++ sq ++ kv.1 ++ sq))
         | .ok left => .error (.typeError (vsrcStr func
             ++ ("() got unexpected keyword arguments ")
             ++ String.intercalate (", ") (left.map (fun kv => sq ++ kv.1 ++ sq))))) := by
      unfold baseValidateArgNames
      rw [hck, hpl]
      exact if_neg (by simp)
    have hempty : (kwargs.filter (fun kv => !((params.map Prod.fst).contains kv.1)) = [])
        ↔ ∀ kv ∈ kwargs, (params.map Prod.fst).contains kv.1 = true := by
      rw [List.filter_eq_nil_iff]
      constructor
      · intro h kv hkv
        have := h kv hkv
        simpa using this
      · intro h kv hkv
        rw [h kv hkv]
        simp
    unfold unexpectedKeys
    refine ⟨?_, ?_, ?_⟩
    · rw [hbase]
      cases hu : kwargs.filter (fun kv => !((params.map Prod.fst).contains kv.1)) with
      | nil =>
        constructor
        · intro _
          exact hempty.mp hu
        · intro _
          rfl
      | cons kv0 tl =>
        have hne : ¬∀ kv ∈ kwargs, (params.map Prod.fst).contains kv.1 = true := by
          intro h
          have := hempty.mpr h
          rw [hu] at this
          cases this
        cases tl with
        | nil =>
          constructor
          · intro h
            cases h
          · intro h
            exact absurd h hne
        | cons kv1 tl' =>
          constructor
          · intro h
            cases h
          · intro h
            exact absurd h hne
    · intro k v hu
      rw [hbase, hu]
    · intro hlen
      rw [hbase]
      cases hu : kwargs.filter (fun kv => !((params.map Prod.fst).contains kv.1)) with
      | nil =>
        rw [hu] at hlen
        cases hlen
      | cons kv0 tl =>
        cases tl with
        | nil =>
          rw [hu] at hlen
          simp at hlen
        | cons kv1 tl' => rfl

/-- Claim C7 witness: declared parameters `{x, y}` (no catch-all) and
supplied `{x, z}` yield the binding error naming `z` alone. -/
theorem claim_C7_witness :
    baseValidateArgNames VSource.vexpand
      [(("x"), ParamKind.normal), (("y"), ParamKind.normal)]
      [(("x"), PyValue.seq []), (("z"), PyValue.seq [])]
      = .error (.typeError (("expand() got an unexpected keyword argument ")
          ++ sq ++ ("z") ++ sq)) :=
  ((claim_C7 VSource.vexpand
      [(("x"), ParamKind.normal), (("y"), ParamKind.normal)]
      [(("x"), PyValue.seq []), (("z"), PyValue.seq [])]
      (by decide) (Or.inr (by decide))).2 rfl).2.1 ("z") (PyValue.seq []) rfl

/-- Every member of a list is bounded by the fold of `max` over it. -/
theorem le_foldr_max (l : List Nat) : ∀ n ∈ l, n ≤ l.foldr max 0 := by
  induction l with
  | nil => simp
  | cons a t ih =>
    intro n hn
    rcases List.mem_cons.mp hn with h | h
    · rw [h]
      exact le_max_left _ _
    · exact le_trans (ih n h) (le_max_right _ _)

/-- The fold of `max` over a list is `0` or one of its members. -/
theorem foldr_max_attained (l : List Nat) : l.foldr max 0 = 0 ∨ l.foldr max 0 ∈ l := by
  induction l with
  | nil => exact Or.inl rfl
  | cons a t ih =>
    rcases le_total a (t.foldr max 0) with h | h
    · rw [List.foldr_cons, max_eq_right h]
      rcases ih with h0 | hm
      · exact Or.inl h0
      · exact Or.inr (List.mem_cons_of_mem _ hm)
    · rw [List.foldr_cons, max_eq_left h]
      exact Or.inr (List.mem_cons_self _ _)

/-- The fold of `max` is invariant under permutation of the list. -/
theorem foldr_max_perm {l l' : List Nat} (p : l.Perm l') :
    l.foldr max 0 = l'.foldr max 0 := by
  induction p with
  | nil => rfl
  | cons a _ ih => simp only [List.foldr_cons, ih]
  | swap a b t => simp only [List.foldr_cons]; exact max_left_comm _ _ _
  | trans _ _ ih1 ih2 => exact ih1.trans ih2

/-- A matching stem pattern and subject segment have equal lengths. -/
theorem stemMatches_length {ps cs : List Char} (h : stemMatches ps cs = true) :
    ps.length = cs.length := by
  induction ps generalizing cs with
  | nil =>
    cases cs with
    | nil => rfl
    | cons c cs' => simp [stemMatches] at h
  | cons p ps' ih =>
    cases cs with
    | nil => simp [stemMatches] at h
    | cons c cs' =>
      rw [stemMatches, Bool.and_eq_true] at h
      simp [List.length_cons, ih h.2]

/-- The executable stem matcher coincides with its relational statement:
pointwise, a dot in the stem matches any non-newline character, anything
else matches only itself. -/
theorem stemMatches_iff (ps cs : List Char) :
    stemMatches ps cs = true
      ↔ List.Forall₂ (fun p c => if p = '.' then c ≠ '\n' else p = c) ps cs := by
  induction ps generalizing cs with
  | nil =>
    cases cs with
    | nil => simp [stemMatches]
    | cons c cs' => simp [stemMatches]
  | cons p ps' ih =>
    cases cs with
    | nil => simp [stemMatches]
    | cons c cs' =>
      rw [stemMatches, Bool.and_eq_true, List.forall₂_cons, ih]
      unfold charMatches
      by_cases hp : p = '.'
      · simp [hp]
      · simp [hp]

/-- On a stem without a dot, pattern matching collapses to equality. -/
theorem forall₂_dotfree_eq (stem front : List Char)
    (hdf : stem.all (fun c => !(c == '.')) = true)
    (h : List.Forall₂ (fun p c => if p = '.' then c ≠ '\n' else p = c) stem front) :
    front = stem := by
  induction h with
  | nil => rfl
  | @cons p c ps cs hpc _ ih =>
    rw [List.all_cons, Bool.and_eq_true] at hdf
    have hp : ¬(p = '.') := by
      have := hdf.1
      simpa using this
    rw [if_neg hp] at hpc
    rw [hpc, ih hdf.2]

/-- Characterization of the suffix matcher: it yields `n` exactly when the
identifier decomposes as a segment matched by the interpolated stem
pattern, a double underscore, and a nonempty all-digit run of value `n`. -/
theorem matchSuffix_some_iff (stem l : List Char) (n : Nat) :
    matchSuffix stem l = some n
      ↔ ∃ front ds, ds ≠ [] ∧ ds.all Char.isDigit = true
          ∧ stemMatches stem front = true
          ∧ l = front ++ '_' :: '_' :: ds ∧ digitsVal ds = n := by
  unfold matchSuffix
  constructor
  · intro h
    by_cases h1 : stemMatches stem (l.take stem.length) = true
    case neg => rw [if_neg h1] at h; cases h
    rw [if_pos h1] at h
    by_cases h2 : (l.drop stem.length).take 2 = ['_', '_']
    case neg => rw [if_neg h2] at h; cases h
    rw [if_pos h2] at h
    by_cases h3 : (!((l.drop stem.length).drop 2).isEmpty
        && ((l.drop stem.length).drop 2).all Char.isDigit) = true
    case neg => rw [if_neg h3] at h; cases h
    rw [if_pos h3] at h
    injection h with h
    rw [Bool.and_eq_true] at h3
    obtain ⟨hne, hdig⟩ := h3
    refine ⟨l.take stem.length, (l.drop stem.length).drop 2, ?_, hdig, h1, ?_, h⟩
    · intro he
      rw [he] at hne
      cases hne
    · have hsplit : l = l.take stem.length ++ l.drop stem.length :=
        (List.take_append_drop _ _).symm
      have hdrop : l.drop stem.length = ['_', '_'] ++ (l.drop stem.length).drop 2 := by
        conv_lhs => rw [← List.take_append_drop 2 (l.drop stem.length)]
        rw [h2]
      conv_lhs => rw [hsplit, hdrop]
      simp
  · rintro ⟨front, ds, hne, hdig, hsm, hl, hval⟩
    subst hl
    have hlen : stem.length = front.length := stemMatches_length hsm
    have htake : (front ++ '_' :: '_' :: ds).take stem.length = front := by
      rw [hlen]
      exact List.take_left _ _
    have hdrop : (front ++ '_' :: '_' :: ds).drop stem.length = '_' :: '_' :: ds := by
      rw [hlen]
      exact List.drop_left _ _
    rw [htake, if_pos hsm, hdrop]
    have h3 : (!(('_' :: '_' :: ds : List Char).drop 2).isEmpty
        && (('_' :: '_' :: ds : List Char).drop 2).all Char.isDigit) = true := by
      show (!ds.isEmpty && ds.all Char.isDigit) = true
      cases ds with
      | nil => exact absurd rfl hne
      | cons c cs => simpa using hdig
    have h2 : List.take 2 ('_' :: '_' :: ds) = ['_', '_'] := rfl
    rw [if_pos h2, if_pos h3]
    exact congrArg some hval

/-- Characterization of the suffix stripper: either nothing was stripped, or
the identifier decomposes as the returned stem, a double underscore, and a
nonempty all-digit run. -/
theorem stripNumSuffix_spec (l : List Char) :
    stripNumSuffix l = l
    ∨ ∃ ds, ds ≠ [] ∧ ds.all Char.isDigit = true
        ∧ l = stripNumSuffix l ++ '_' :: '_' :: ds := by
  unfold stripNumSuffix
  by_cases h1 : (l.reverse.takeWhile Char.isDigit).isEmpty = true
  · rw [if_pos h1]
    exact Or.inl rfl
  rw [if_neg h1]
  by_cases h2 : (l.reverse.dropWhile Char.isDigit).take 2 = ['_', '_']
  case neg =>
    rw [if_neg h2]
    exact Or.inl rfl
  rw [if_pos h2]
  right
  refine ⟨(l.reverse.takeWhile Char.isDigit).reverse, ?_, ?_, ?_⟩
  · intro he
    rw [List.reverse_eq_nil_iff] at he
    exact h1 (by simp [he])
  · rw [List.all_eq_true]
    intro c hc
    exact List.mem_takeWhile_imp (List.mem_reverse.mp hc)
  · have hsplit : l.reverse.takeWhile Char.isDigit ++ l.reverse.dropWhile Char.isDigit
        = l.reverse := List.takeWhile_append_dropWhile _ _
    have hrev : l = (l.reverse.dropWhile Char.isDigit).reverse
        ++ (l.reverse.takeWhile Char.isDigit).reverse := by
      rw [← List.reverse_append, hsplit, List.reverse_reverse]
    have hA2 : l.reverse.dropWhile Char.isDigit
        = ['_', '_'] ++ (l.reverse.dropWhile Char.isDigit).drop 2 := by
      conv_lhs => rw [← List.take_append_drop 2 (l.reverse.dropWhile Char.isDigit)]
      rw [h2]
    conv_lhs => rw [hrev, hA2]
    rw [List.reverse_append]
    simp [List.append_assoc]

/-- Claim C2 counterexample: the source interpolates the stem verbatim into
the scan regex, so the dot of the valid task id `a.c` matches any
character.  With the used set `{a.c, axc__5}` the allocator returns
`a.c__6` — the wildcard makes `axc__5` count as a `stem__<digits>` entry —
whereas the claim, whose max-set `{N : stem__<N> ∈ used}` is empty here
(in particular `a.c__5` is not in the used set), predicts `a.c__1`. -/
theorem claim_C2_counterexample :
    get_unique_task_id ("a.c") (some [("a.c"), ("axc__5")]) = ("a.c__6")
    ∧ ("a.c" : String) ∈ [("a.c"), ("axc__5")]
    ∧ stripNumSuffix ("a.c").data = ("a.c").data
    ∧ String.mk (("a.c").data ++ '_' :: '_' :: (Nat.repr 5).data) ∉ [("a.c"), ("axc__5")]
    ∧ (("a.c__6" : String) ≠ ("a.c__1")) :=
  ⟨by decide, by decide, by decide, by decide, by decide⟩

/-- Claim C2 amended: for identifiers over the ASCII task-id alphabet
(word characters, dot, dash — the alphabet Airflow's key validation
allows, on which the dot is the only regex metacharacter and the digit
class coincides with the ASCII digits), `get_unique_task_id` on a desired
identifier already among the used ids strips any `__<digits>` suffix to
obtain a stem and returns `stem__<M+1>`, where `M` is an upper bound of
the numeric values of all used entries that decompose as a segment
*matched by the interpolated stem pattern* (a dot matching any non-newline
character, other characters matching literally), a double underscore and a
digit run, and `M` is itself `0` or attained by such an entry — the
maximum, defaulting to 0.  On a stem free of dots the pattern matching
collapses to literal equality, recovering the claim's original reading.
The result is invariant under permutation of the used ids, and on the used
set `{t, t__1, t__3}` the allocator yields `t__4`. -/
theorem claim_C2_amended (d : String) (ids : List String)
    (_hd : d.data.all isTaskIdChar = true)
    (_hids : ∀ s ∈ ids, s.data.all isTaskIdChar = true)
    (hmem : d ∈ ids) :
    (stripNumSuffix d.data = d.data
      ∨ ∃ ds, ds ≠ [] ∧ ds.all Char.isDigit = true
          ∧ d.data = stripNumSuffix d.data ++ '_' :: '_' :: ds)
    ∧ (∃ M, get_unique_task_id d (some ids)
          = String.mk (stripNumSuffix d.data) ++ ("__") ++ Nat.repr (M + 1)
        ∧ (∀ s ∈ ids, ∀ front ds, ds ≠ [] → ds.all Char.isDigit = true →
            List.Forall₂ (fun p c => if p = '.' then c ≠ '\n' else p = c)
              (stripNumSuffix d.data) front →
            s.data = front ++ '_' :: '_' :: ds → digitsVal ds ≤ M)
        ∧ (M = 0 ∨ ∃ s ∈ ids, ∃ front ds, ds ≠ [] ∧ ds.all Char.isDigit = true
            ∧ List.Forall₂ (fun p c => if p = '.' then c ≠ '\n' else p = c)
                (stripNumSuffix d.data) front
            ∧ s.data = front ++ '_' :: '_' :: ds ∧ digitsVal ds = M))
    ∧ ((stripNumSuffix d.data).all (fun c => !(c == '.')) = true →
        ∀ front, List.Forall₂ (fun p c => if p = '.' then c ≠ '\n' else p = c)
            (stripNumSuffix d.data) front → front = stripNumSuffix d.data)
    ∧ (∀ ids', ids.Perm ids' →
        get_unique_task_id d (some ids) = get_unique_task_id d (some ids'))
    ∧ get_unique_task_id ("t") (some [("t"), ("t__1"), ("t__3")]) = ("t__4") := by
  refine ⟨stripNumSuffix_spec d.data,
    ⟨maxSuffix (stripNumSuffix d.data) ids, ?_, ?_, ?_⟩, ?_, ?_, ?_⟩
  · simp [get_unique_task_id, hmem]
  · intro s hs front ds hne hdig hf2 hdecomp
    have hsm : stemMatches (stripNumSuffix d.data) front = true :=
      (stemMatches_iff _ _).mpr hf2
    have hms : matchSuffix (stripNumSuffix d.data) s.data = some (digitsVal ds) :=
      (matchSuffix_some_iff _ _ _).mpr ⟨front, ds, hne, hdig, hsm, hdecomp, rfl⟩
    exact le_foldr_max _ _ (List.mem_filterMap.mpr ⟨s, hs, hms⟩)
  · rcases foldr_max_attained (suffixList (stripNumSuffix d.data) ids) with h0 | hm
    · exact Or.inl h0
    · right
      obtain ⟨s, hs, hms⟩ := List.mem_filterMap.mp hm
      obtain ⟨front, ds, hne, hdig, hsm, hdecomp, hval⟩ :=
        (matchSuffix_some_iff _ _ _).mp hms
      exact ⟨s, hs, front, ds, hne, hdig, (stemMatches_iff _ _).mp hsm, hdecomp, hval⟩
  · intro hdf front hf2
    exact forall₂_dotfree_eq _ _ hdf hf2
  · intro ids' hp
    have hmem' : d ∈ ids' := hp.mem_iff.mp hmem
    have hperm : (suffixList (stripNumSuffix d.data) ids).Perm
        (suffixList (stripNumSuffix d.data) ids') := hp.filterMap _
    simp [get_unique_task_id, hmem, hmem', maxSuffix, foldr_max_perm hperm]
  · decide

/-- Claim C2 witness at the concrete used set of the claim. -/
theorem claim_C2_witness :
    get_unique_task_id ("t") (some [("t"), ("t__1"), ("t__3")]) = ("t__4") :=
  (claim_C2_amended ("t") [("t"), ("t__1"), ("t__3")]
      (by decide) (by decide) (by decide)).2.2.2.2

end AirflowSpec
